import Mathlib

/-!
Verification of the DoroShop backend payment/commission settlement subsystem.

This file gives a shallow embedding in Lean of the settlement operations of
the repository (payments service, COD commission service, idempotency guard)
and proves properties of them.  Collections of the document database are
modelled as Lean lists of records; monetary amounts in minor currency units
are integers and wallet-currency amounts are exact rationals; a database
transaction that aborts returns the pre-transaction state.  SHA-256 hashing
is modelled as an injective encoding of its input (only determinism and
collision-freeness of the hash are used by the code).  Document ids are
natural numbers drawn from a fresh-id supply carried in the state.
-/

namespace DS

set_option maxRecDepth 4000

/-- Direction of a ledger entry (the `type` field of WalletTransaction). -/
inductive TxType
  | credit
  | debit
deriving DecidableEq, Repr

/-- Status vocabulary of a Payment document. -/
inductive PaymentStatus
  | pending
  | awaiting_payment
  | processing
  | succeeded
  | failed
  | rejected
  | cancelled
  | refunded
  | partially_refunded
  | expired
deriving DecidableEq, Repr

/-- The `type` field of a Payment document. -/
inductive PaymentType
  | checkout
  | refund
  | withdraw
  | cash_in
  | subscription
deriving DecidableEq, Repr

/-- Status vocabulary of a Commission document. -/
inductive CommissionStatus
  | pending
  | remitted
  | overdue
  | waived
  | disputed
deriving DecidableEq, Repr

/-- JavaScript Math.round on an exact rational: floor of x + 1/2. -/
def jsRound (q : ℚ) : ℤ := ⌊q + 1 / 2⌋

/-- SHA-256 hex digest, modelled as an injective encoding of the input
string; the code relies only on determinism and collision-freeness. -/
def sha256Hex (s : String) : String := "sha256:" ++ s

/-- An append-only WalletTransaction ledger document. -/
structure WalletTx where
  id : Nat
  wallet : Nat
  user : Nat
  txType : TxType
  amount : ℚ
  referenceType : String
  referenceId : Nat
  status : String
  balanceBefore : ℚ
  balanceAfter : ℚ
deriving DecidableEq, Repr

/-- An entry of the bounded inline transaction log embedded in a wallet
document (`wallet.transactions`), kept for display only. -/
structure InlineTx where
  txType : TxType
  amount : ℚ
  description : String
deriving DecidableEq, Repr

/-- A VendorWallet document: cached balance plus inline recent-transaction
log.  The authoritative ledger is the WalletTx collection. -/
structure VendorWallet where
  id : Nat
  user : Nat
  balance : ℚ
  transactions : List InlineTx
deriving DecidableEq, Repr

/-- A Vendor document (only the fields touched by the settlement code). -/
structure VendorDoc where
  userId : Nat
  accountBalanceCash : ℚ
deriving DecidableEq, Repr

/-- One line item of the checkout snapshot cached on a pay-first payment. -/
structure CheckoutItem where
  vendorId : Option Nat
  productId : Nat
  price : ℚ
  quantity : Nat
deriving DecidableEq, Repr

/-- The `checkoutData` snapshot stored on a pay-first Payment. -/
structure CheckoutData where
  items : List CheckoutItem
deriving DecidableEq, Repr

/-- Payout destination details of a withdrawal request. -/
structure BankAccount where
  accountNumber : String
  accountName : String
  bankName : String
deriving DecidableEq, Repr

/-- A Payment document (the fields used by the settlement subsystem).
`idempotencyKeySanitized` mirrors the fact that no schema path of that name
exists and no code ever writes one: it is carried so that the query of
`createWithdrawal` that filters on this field can be embedded faithfully;
every constructor of a Payment in this file leaves it `none`. -/
structure Payment where
  id : Nat
  userId : Nat
  orderId : Option Nat
  ptype : PaymentType
  amount : ℤ
  fee : ℤ
  netAmount : ℤ
  status : PaymentStatus
  idempotencyKey : Option String
  idempotencyKeySanitized : Option String
  bankAccount : Option BankAccount
  walletCredited : Bool
  walletCreditedAt : Option Nat
  isFinal : Bool
  ordersCreated : Bool
  orderIds : List Nat
  orderCreationError : Option String
  checkoutData : Option CheckoutData
  paymentIntentId : Option String
  rejectedBy : Option Nat
  updatedAt : Nat
deriving DecidableEq, Repr

/-- A Payment with every field at its schema default; concrete payments are
built from it by overriding the fields the relevant flow sets. -/
def Payment.base : Payment :=
  { id := 0, userId := 0, orderId := none, ptype := .checkout, amount := 0,
    fee := 0, netAmount := 0, status := .pending, idempotencyKey := none,
    idempotencyKeySanitized := none, bankAccount := none,
    walletCredited := false, walletCreditedAt := none, isFinal := false,
    ordersCreated := false, orderIds := [], orderCreationError := none,
    checkoutData := none, paymentIntentId := none, rejectedBy := none,
    updatedAt := 0 }

/-- One entry of a commission remittance history. -/
structure RemitEntry where
  amount : ℚ
  method : String
  status : String
deriving DecidableEq, Repr

/-- One entry of a commission status audit trail. -/
structure StatusEntry where
  status : CommissionStatus
  changedBy : Option Nat
  reason : String
deriving DecidableEq, Repr

/-- A Commission document. -/
structure Commission where
  id : Nat
  order : Nat
  vendor : Nat
  status : CommissionStatus
  commissionAmount : ℚ
  remittanceIdempotencyKey : Option String
  walletTransactionId : Option Nat
  remittanceHistory : List RemitEntry
  statusHistory : List StatusEntry
deriving DecidableEq, Repr

/-- An Order document produced by the order materializer (the fields the
settlement code writes). -/
structure OrderDoc where
  id : Nat
  customerId : Nat
  vendorId : Nat
  subTotal : ℚ
  status : String
  escrowStatus : String
  paymentId : Nat
deriving DecidableEq, Repr

/-- The document database state shared by the settlement operations, with a
fresh-id supply for newly inserted documents. -/
structure Db where
  payments : List Payment
  wallets : List VendorWallet
  walletTxs : List WalletTx
  commissions : List Commission
  orders : List OrderDoc
  vendors : List VendorDoc
  nextId : Nat
deriving DecidableEq, Repr

/-- MongoDB findOneAndUpdate over a list: update the first element matching
the filter, returning the updated document (returnDocument after) and the
new list. -/
def findOneAndUpdateL {α : Type} (p : α → Bool) (f : α → α) :
    List α → Option α × List α
  | [] => (none, [])
  | x :: xs =>
    if p x then (some (f x), f x :: xs)
    else
      let r := findOneAndUpdateL p f xs
      (r.1, x :: r.2)

/-- Replace every document with the given id (ids are unique in
well-formed states, so this is the single-document update). -/
def Db.updatePayment (db : Db) (pid : Nat) (f : Payment → Payment) : Db :=
  { db with payments := db.payments.map fun p => if p.id = pid then f p else p }

/-- Single-wallet update by wallet id. -/
def Db.updateWallet (db : Db) (wid : Nat) (f : VendorWallet → VendorWallet) : Db :=
  { db with wallets := db.wallets.map fun w => if w.id = wid then f w else w }

/-- Single-commission update by commission id. -/
def Db.updateCommission (db : Db) (cid : Nat) (f : Commission → Commission) : Db :=
  { db with commissions := db.commissions.map fun c => if c.id = cid then f c else c }

/-- Error taxonomy of the service layer.  The insufficient-funds validation
error of the commission service carries the two figures that the source
interpolates into its message. -/
inductive SvcError
  | validation (msg : String)
  | insufficientFunds (avail required : ℚ)
  | notFound (what : String)
  | conflict (msg : String)
  | externalService (msg : String)
  | internal (msg : String)
deriving DecidableEq, Repr

/-- Modelled from the spec: the static `VendorWallet.getOrCreateForUser`
lives in the wallet module, whose source file is not part of the provided
sources; spec section 4.3 specifies it as an idempotent lookup-or-insert of
a zero-balance wallet for the actor. -/
def getOrCreateForUser (uid : Nat) (db : Db) : VendorWallet × Db :=
  match db.wallets.find? (fun w => w.user == uid) with
  | some w => (w, db)
  | none =>
    let w : VendorWallet := { id := db.nextId, user := uid, balance := 0, transactions := [] }
    (w, { db with wallets := db.wallets ++ [w], nextId := db.nextId + 1 })

/-- The pre-save hook of the Payment schema: whenever amount or fee was
modified, recompute `netAmount = amount - fee`. -/
def preSaveNetAmount (p : Payment) : Payment :=
  { p with netAmount := p.amount - p.fee }

/-- Saving a Payment document: the pre-save hook fires, recomputing
netAmount only when the amount or fee path was modified by this save. -/
def savePayment (amountOrFeeModified : Bool) (p : Payment) : Payment :=
  if amountOrFeeModified then preSaveNetAmount p else p

/-- Function `createCashIn` of the payments service: validates amount bounds and the
QRPH method, resolves the idempotency key (caller-supplied or a fresh random
key, modelled by the `freshKey` argument), replays an existing payment with
the same key, otherwise persists the cash-in Payment (fee = round of 1.5
percent, net = amount - fee) and contacts the gateway.  The gateway-assigned
intent id is modelled deterministically from the key. -/
def createCashIn (userId : Nat) (amount : ℤ) (paymentMethod : String)
    (idemKey : Option String) (freshKey : String) (db : Db) :
    Except SvcError Payment × Db :=
  if amount < 100 then
    (.error (.validation "Minimum cash-in amount is 1 PHP (100 centavos)"), db)
  else if 10000000 < amount then
    (.error (.validation "Maximum cash-in amount is 100,000 PHP"), db)
  else if paymentMethod.toLower.trim ≠ "qrph" then
    (.error (.validation "Vendor cash-in is only available via QRPH"), db)
  else
    let key := (match idemKey with
      | some k => if k ≠ "" then k else freshKey
      | none => freshKey).trim
    if key = "" then (.error (.validation "Idempotency key is required"), db)
    else
      match db.payments.find? (fun p =>
          p.userId == userId && p.ptype == PaymentType.cash_in &&
          p.idempotencyKey == some key) with
      | some existing => (.ok existing, db)
      | none =>
        let fee : ℤ := jsRound ((amount : ℚ) * 15 / 1000)
        let net : ℤ := amount - fee
        -- the partial unique index on (userId, idempotencyKey) rejects the
        -- insert when another payment of this user already holds the key
        if db.payments.any (fun p =>
            p.userId == userId && p.idempotencyKey == some key) then
          match db.payments.find? (fun p =>
              p.userId == userId && p.ptype == PaymentType.cash_in &&
              p.idempotencyKey == some key) with
          | some dup => (.ok dup, db)
          | none => (.error (.internal "E11000 duplicate key"), db)
        else
          let basePayment : Payment := savePayment true
            { Payment.base with
              id := db.nextId, userId := userId,
              ptype := .cash_in, amount := amount, fee := fee,
              netAmount := net, status := .processing,
              idempotencyKey := some key }
          let intentId := "pi_" ++ key
          let final : Payment := savePayment false
            { basePayment with
              paymentIntentId := some intentId,
              status := .awaiting_payment }
          (.ok final,
            { db with payments := db.payments ++ [final], nextId := db.nextId + 1 })

/-- Function `processCashInSuccess`: credits the vendor wallet with
`netAmount / 100` wallet-currency units inside one transaction, recording a
completed WalletTransaction credit row with before and after balances, and
stamps the payment walletCredited.  No-op when the payment is not a cash-in
or was already credited. -/
def processCashInSuccess (p : Payment) (now : Nat) (db : Db) :
    Except SvcError Payment × Db :=
  if p.ptype ≠ .cash_in then (.ok p, db)
  else if p.walletCredited then (.ok p, db)
  else
    let wdb := getOrCreateForUser p.userId db
    let wallet := wdb.1
    let db₁ := wdb.2
    let amountPhp : ℚ := (p.netAmount : ℚ) / 100
    let balanceBefore := wallet.balance
    let balanceAfter := balanceBefore + amountPhp
    let tx : WalletTx :=
      { id := db₁.nextId, wallet := wallet.id, user := p.userId,
        txType := .credit, amount := amountPhp, referenceType := "topup",
        referenceId := p.id, status := "completed",
        balanceBefore := balanceBefore, balanceAfter := balanceAfter }
    let db₂ := { db₁ with walletTxs := db₁.walletTxs ++ [tx], nextId := db₁.nextId + 1 }
    let db₃ := db₂.updateWallet wallet.id fun w =>
      { w with
        balance := w.balance + amountPhp,
        transactions := w.transactions ++
          [{ txType := .credit, amount := amountPhp,
             description := "Wallet top-up (Cash-in)" }] }
    let pFinal : Payment := savePayment false
      { p with walletCredited := true, walletCreditedAt := some now }
    (.ok pFinal, db₃.updatePayment p.id fun _ => pFinal)

/-- Function `createCheckoutPayment`: rejects negative amounts, looks the order up
(only for strictly positive amounts), rejects orders that already have a
succeeded payment, then creates a gateway payment intent and persists the
Payment row.  The third component of the result is the trace of gateway
calls made, so that gateway contact is observable. -/
def createCheckoutPayment (userId orderId : Nat) (amount : ℤ)
    (freshKey : String) (db : Db) :
    Except SvcError Payment × Db × List String :=
  if amount < 0 then
    (.error (.validation "Amount must be at least 0 PHP (0 centavos)"), db, [])
  else
    let orderCheck : Option SvcError :=
      if 0 < amount then
        match db.orders.find? (fun o => o.id == orderId) with
        | none => some (.notFound "Order")
        | some o =>
          if o.customerId ≠ userId then
            some (.validation "Order does not belong to this user")
          else none
      else none
    match orderCheck with
    | some e => (.error e, db, [])
    | none =>
      match db.payments.find? (fun p =>
          p.orderId == some orderId && p.status == PaymentStatus.succeeded) with
      | some _ => (.error (.conflict "Order has already been paid"), db, [])
      | none =>
        let intentId := "pi_" ++ freshKey
        let pay : Payment := savePayment true
          { Payment.base with
            id := db.nextId, userId := userId,
            orderId := some orderId, ptype := .checkout, amount := amount,
            fee := 0, netAmount := amount, status := .awaiting_payment,
            idempotencyKey := some freshKey,
            paymentIntentId := some intentId }
        (.ok pay,
          { db with payments := db.payments ++ [pay], nextId := db.nextId + 1 },
          ["createPaymentIntent"])

/-- The deterministic idempotency key derived by `createWithdrawal` when the
caller supplies none: a hash of vendor id, amount, method and the trimmed
account details (the JSON serialization that the source hashes is modelled
as an injective encoding of the same tuple). -/
def withdrawDerivedKey (vendorId : Nat) (amount : ℤ)
    (method accNum accName bankName : String) : String :=
  "withdraw:" ++ toString vendorId ++ ":" ++
    sha256Hex ("amount:" ++ toString amount ++ ";method:" ++ method ++
      ";accountNumber:" ++ accNum.trim ++ ";accountName:" ++ accName.trim ++
      ";bankName:" ++ bankName.trim)

/-- Function `createWithdrawal`: validates minimum amount, account details and payout
method; resolves the idempotency key (caller-supplied or derived); runs a
pre-query that filters on the schema path `idempotencyKeySanitized` (which
no document ever has); inside a transaction checks the wallet balance by
read-then-compare and creates the pending Payment row under the partial
unique index on (userId, idempotencyKey); commits; then applies the atomic
conditional wallet debit outside that transaction.  When the insert hits the
unique index, the fallback looks an existing payment up filtering on the raw
caller-supplied key (a filter whose value is undefined when the key was
derived, which the ODM strips from the query).  When the post-commit debit
finds no wallet with sufficient balance, the committed Payment row is kept
and the error propagates. -/
def createWithdrawal (vendorId : Nat) (amount : ℤ) (bank : BankAccount)
    (payoutMethod : String) (idemKey : Option String) (db : Db) :
    Except SvcError Payment × Db :=
  if amount < 10000 then
    (.error (.validation "Minimum withdrawal amount is 100 PHP"), db)
  else if bank.accountNumber = "" ∨ bank.accountName = "" ∨ bank.bankName = "" then
    (.error (.validation "Complete bank account details are required"), db)
  else
    let method := payoutMethod.toLower
    if ¬(method = "gcash" ∨ method = "paymaya") then
      (.error (.validation "Withdrawal method must be GCash or PayMaya"), db)
    else
      let derived := withdrawDerivedKey vendorId amount method
        bank.accountNumber bank.accountName bank.bankName
      let key := match idemKey with
        | some k => if k.trim ≠ "" then k.trim else derived
        | none => derived
      match db.payments.find? (fun p =>
          p.userId == vendorId && p.ptype == PaymentType.withdraw &&
          p.idempotencyKeySanitized == some key) with
      | some existing => (.ok existing, db)
      | none =>
        -- the wallet upsert is issued without the session, so it survives a
        -- later transaction abort
        let wdb := getOrCreateForUser vendorId db
        let wallet := wdb.1
        let db₁ := wdb.2
        let amountPhp : ℚ := (amount : ℚ) / 100
        let fee : ℤ := jsRound ((amount : ℚ) * 1 / 100)
        let net : ℤ := max 0 (amount - fee)
        if wallet.balance < amountPhp then
          (.error (.validation "Insufficient wallet balance for withdrawal"), db₁)
        else
          if db₁.payments.any (fun p =>
              p.userId == vendorId && p.idempotencyKey == some key) then
            -- E11000 on the insert: the transaction aborts and the fallback
            -- queries on the raw caller key
            let fallback := match idemKey with
              | some rawk => db₁.payments.find? (fun p =>
                  p.userId == vendorId && p.ptype == PaymentType.withdraw &&
                  p.idempotencyKey == some rawk)
              | none => db₁.payments.find? (fun p =>
                  p.userId == vendorId && p.ptype == PaymentType.withdraw)
            match fallback with
            | some ex => (.ok ex, db₁)
            | none => (.error (.conflict "Duplicate withdrawal request"), db₁)
          else
            let pay : Payment := savePayment true
              { Payment.base with
                id := db₁.nextId, userId := vendorId, ptype := .withdraw,
                amount := amount, fee := fee, netAmount := net,
                status := .pending,
                bankAccount := some
                  { accountNumber := bank.accountNumber,
                    accountName := bank.accountName,
                    bankName := if bank.bankName ≠ "" then bank.bankName
                      else if method = "gcash" then "GCash" else "PayMaya" },
                idempotencyKey := some key }
            let db₂ :=
              { db₁ with payments := db₁.payments ++ [pay], nextId := db₁.nextId + 1 }
            let upd := findOneAndUpdateL
              (fun w => w.user == vendorId && decide (amountPhp ≤ w.balance))
              (fun w =>
                { w with
                  balance := w.balance - amountPhp,
                  transactions := w.transactions ++
                    [{ txType := .debit, amount := amountPhp,
                       description := "Vendor Withdrawal" }] })
              db₂.wallets
            match upd.1 with
            | some _ => (.ok pay, { db₂ with wallets := upd.2 })
            | none =>
              (.error (.internal "Insufficient balance or wallet not found"), db₂)

/-- Function `rejectWithdrawal`: a pending withdrawal becomes rejected and final, and
the vendor wallet receives a compensating credit of amount / 100 applied by
a single-document increment.  The inline-log push of that credit is passed
in the options argument of the update, which the driver ignores, so only the
balance increment takes effect; no WalletTransaction row is created. -/
def rejectWithdrawal (adminId paymentId : Nat) (db : Db) :
    Except SvcError Payment × Db :=
  match db.payments.find? (fun p => p.id == paymentId) with
  | none => (.error (.notFound "Payment not found"), db)
  | some payment =>
    if payment.ptype ≠ .withdraw then
      (.error (.validation "Payment is not a withdrawal"), db)
    else if payment.status ≠ .pending then
      (.error (.validation "Only pending withdrawals can be rejected"), db)
    else
      let amountPhp : ℚ := (payment.amount : ℚ) / 100
      let pay : Payment := savePayment false
        { payment with
          status := .rejected, isFinal := true, rejectedBy := some adminId }
      let db₁ := db.updatePayment payment.id fun _ => pay
      let upd := findOneAndUpdateL (fun w => w.user == payment.userId)
        (fun w => { w with balance := w.balance + amountPhp }) db₁.wallets
      (.ok pay, { db₁ with wallets := upd.2 })

/-- Function `cancelWithdrawal`: a pending or processing withdrawal owned by the
vendor becomes cancelled and final; the vendor document gets
accountBalance.cash incremented by amount / 100 and the vendor wallet
balance is separately incremented by amount / 100 (this inline-log push is
likewise passed in the options argument and ignored). -/
def cancelWithdrawal (vendorId paymentId : Nat) (idemKey : Option String)
    (db : Db) : Except SvcError Payment × Db :=
  match db.payments.find? (fun p => p.id == paymentId) with
  | none => (.error (.notFound "Payment not found"), db)
  | some payment =>
    if payment.ptype ≠ .withdraw then
      (.error (.validation "Payment is not a withdrawal"), db)
    else if payment.userId ≠ vendorId then
      (.error (.validation "Access denied"), db)
    else if ¬(payment.status = .pending ∨ payment.status = .processing) then
      (.error (.validation "Only pending withdrawals can be cancelled"), db)
    else
      let amountPhp : ℚ := (payment.amount : ℚ) / 100
      let updVendors := findOneAndUpdateL (fun v => v.userId == vendorId)
        (fun v => { v with accountBalanceCash := v.accountBalanceCash + amountPhp })
        db.vendors
      let db₁ := { db with vendors := updVendors.2 }
      let pay : Payment := savePayment false
        { payment with
          status := .cancelled, isFinal := true,
          idempotencyKey := match idemKey with
            | some k => if k ≠ "" then some k else payment.idempotencyKey
            | none => payment.idempotencyKey }
      let db₂ := db₁.updatePayment payment.id fun _ => pay
      let updWallets := findOneAndUpdateL (fun w => w.user == vendorId)
        (fun w => { w with balance := w.balance + amountPhp }) db₂.wallets
      (.ok pay, { db₂ with wallets := updWallets.2 })

/-- In-process circuit breaker state of the commission service. -/
structure Breaker where
  failures : Nat
  lastFailure : Nat
  isOpen : Bool
deriving DecidableEq, Repr

/-- Function `checkCircuitBreaker`: closed breakers pass; an open breaker passes and
resets once more than the reset timeout (60000 ms) elapsed since the last
failure. -/
def checkCircuitBreaker (now : Nat) (cb : Breaker) : Bool × Breaker :=
  if ¬cb.isOpen then (true, cb)
  else if 60000 < now - cb.lastFailure then
    (true, { cb with isOpen := false, failures := 0 })
  else (false, cb)

/-- Function `recordFailure`: bump the failure counter, stamp the failure time, and
open the breaker at the threshold of 5 failures. -/
def recordFailure (now : Nat) (cb : Breaker) : Breaker :=
  { cb with
    failures := cb.failures + 1, lastFailure := now,
    isOpen := if 5 ≤ cb.failures + 1 then true else cb.isOpen }

/-- Function `generateIdempotencyKey` of the commission service: a deterministic
hash of commissionId and vendorId. -/
def generateIdempotencyKey (commissionId vendorId : Nat) : String :=
  sha256Hex (toString commissionId ++ ":" ++ toString vendorId)

/-- Function `ensureCommissionForRemit`: the in-transaction re-fetch requiring the
commission to belong to the vendor and to be pending or overdue. -/
def ensureCommissionForRemit (commissionId vendorId : Nat) (db : Db) :
    Option Commission :=
  db.commissions.find? fun c =>
    c.id == commissionId && c.vendor == vendorId &&
    (c.status == CommissionStatus.pending || c.status == CommissionStatus.overdue)

/-- Function `getOrCreateVendorWalletInSession`: wallet upsert by vendor inside the
remittance transaction. -/
def getOrCreateVendorWalletInSession (vendorId : Nat) (db : Db) :
    VendorWallet × Db :=
  match db.wallets.find? (fun w => w.user == vendorId) with
  | some w => (w, db)
  | none =>
    let w : VendorWallet := { id := db.nextId, user := vendorId, balance := 0, transactions := [] }
    (w, { db with wallets := db.wallets ++ [w], nextId := db.nextId + 1 })

/-- Successful remittance result. -/
structure RemitOk where
  commission : Commission
  transaction : WalletTx
  newBalance : ℚ
deriving DecidableEq, Repr

/-- Function `remitCommissionViaWallet`: inside one transaction, re-fetch the
commission (pending or overdue, owned by the vendor), set the deterministic
idempotency key once (conflict if any commission already recorded it),
upsert the vendor wallet, validate the amount and balance, create the
completed WalletTransaction debit row, apply the conditional atomic
decrement, and mark the commission remitted with history entries.  Any
failure aborts the transaction (the database reverts to its input state)
and records a circuit-breaker failure.  The rational-number embedding of
amounts makes the Number.isFinite guards of the source vacuously true. -/
def remitCommissionViaWallet (commissionId vendorId actorUserId : Nat)
    (now : Nat) (cb : Breaker) (db : Db) :
    Except SvcError RemitOk × Breaker × Db :=
  let chk := checkCircuitBreaker now cb
  if ¬chk.1 then
    (.error (.externalService "Service temporarily unavailable. Please try again later."),
      recordFailure now chk.2, db)
  else
    let cb₁ := chk.2
    match ensureCommissionForRemit commissionId vendorId db with
    | none => (.error (.notFound "Commission"), recordFailure now cb₁, db)
    | some commission =>
      let key := generateIdempotencyKey commissionId vendorId
      if db.commissions.any (fun c => c.remittanceIdempotencyKey == some key) then
        (.error (.conflict "Duplicate transaction detected"), recordFailure now cb₁, db)
      else
        let commission₁ := { commission with remittanceIdempotencyKey := some key }
        let dbS := db.updateCommission commission.id fun _ => commission₁
        let wdb := getOrCreateVendorWalletInSession vendorId dbS
        let wallet := wdb.1
        let dbS₁ := wdb.2
        let commissionAmount := commission.commissionAmount
        if commissionAmount ≤ 0 then
          (.error (.validation "Invalid commission amount. Please contact support."),
            recordFailure now cb₁, db)
        else if wallet.balance < commissionAmount then
          (.error (.insufficientFunds wallet.balance commissionAmount),
            recordFailure now cb₁, db)
        else
          let balanceBefore := wallet.balance
          let tx : WalletTx :=
            { id := dbS₁.nextId, wallet := wallet.id, user := vendorId,
              txType := .debit, amount := commissionAmount,
              referenceType := "commission", referenceId := commission.id,
              status := "completed", balanceBefore := balanceBefore,
              balanceAfter := balanceBefore - commissionAmount }
          let dbS₂ :=
            { dbS₁ with walletTxs := dbS₁.walletTxs ++ [tx], nextId := dbS₁.nextId + 1 }
          let upd := findOneAndUpdateL
            (fun w => w.id == wallet.id && decide (commissionAmount ≤ w.balance))
            (fun w =>
              { w with
                balance := w.balance - commissionAmount,
                transactions := w.transactions ++
                  [{ txType := .debit, amount := commissionAmount,
                     description := "Commission remittance" }] })
            dbS₂.wallets
          match upd.1 with
          | none =>
            (.error (.validation "Failed to deduct from wallet. Balance may have changed."),
              recordFailure now cb₁, db)
          | some updatedWallet =>
            let dbS₃ := { dbS₂ with wallets := upd.2 }
            let commission₂ : Commission :=
              { commission₁ with
                status := .remitted,
                walletTransactionId := some tx.id,
                remittanceIdempotencyKey := some key,
                remittanceHistory := commission₁.remittanceHistory ++
                  [{ amount := commissionAmount, method := "wallet", status := "completed" }],
                statusHistory := commission₁.statusHistory ++
                  [{ status := .remitted, changedBy := some actorUserId,
                     reason := "Remitted via wallet deduction" }] }
            let dbS₄ := dbS₃.updateCommission commission.id fun _ => commission₂
            (.ok { commission := commission₂, transaction := tx,
                   newBalance := updatedWallet.balance }, cb₁, dbS₄)

/-- Group checkout items by vendor in first-occurrence order, appending each
item to its vendor group; items without a vendor id are skipped. -/
def addToGroup (acc : List (Nat × List CheckoutItem)) (v : Nat)
    (it : CheckoutItem) : List (Nat × List CheckoutItem) :=
  match acc with
  | [] => [(v, [it])]
  | (k, xs) :: rest =>
    if k = v then (k, xs ++ [it]) :: rest
    else (k, xs) :: addToGroup rest v it

/-- The vendor grouping step of the order materializer. -/
def groupByVendor (items : List CheckoutItem) :
    List (Nat × List CheckoutItem) :=
  items.foldl
    (fun acc it => match it.vendorId with
      | none => acc
      | some v => addToGroup acc v it)
    []

/-- The staleness condition of the order-creation claim: the conditional
update matches the payment only when orders were not created yet and either
no in-progress claim exists or the existing claim is older than 10 minutes
(600000 ms). -/
def orderClaimCond (p : Payment) (now : Nat) : Prop :=
  p.ordersCreated = false ∧
    (p.orderCreationError ≠ some "in_progress" ∨ p.updatedAt < now - 600000)

instance (p : Payment) (now : Nat) : Decidable (orderClaimCond p now) := by
  unfold orderClaimCond; infer_instance

/-- The per-vendor-group order-creation loop of the materializer: each
group yields one paid, escrow-held order, accumulating the created orders,
their ids, and advancing the id supply. -/
def materializeGroups (uid pid : Nat) :
    List (Nat × List CheckoutItem) → List OrderDoc × List Nat × Nat →
      List OrderDoc × List Nat × Nat
  | [], st => st
  | g :: gs, st =>
    let order : OrderDoc :=
      { id := st.2.2, customerId := uid, vendorId := g.1,
        subTotal := (g.2.map fun it => it.price * (it.quantity : ℚ)).sum,
        status := "paid", escrowStatus := "held", paymentId := pid }
    materializeGroups uid pid gs (st.1 ++ [order], st.2.1 ++ [order.id], st.2.2 + 1)

/-- Function `createOrdersFromPayment`: given a succeeded pay-first payment id,
guarantee single materialization via the claim step (an atomic conditional
update writing `orderCreationError = "in_progress"`); the winner groups the
checkout snapshot per vendor, creates one paid, escrow-held order per
group, then marks the payment ordersCreated with the id list and clears the
marker; a loser reads back and returns the current orderIds.  The document
timestamps bump updatedAt whenever the claim update matches, so a matching
filter implies a modified document. -/
def createOrdersFromPayment (pid : Nat) (now : Nat) (db : Db) :
    Except SvcError (List Nat) × Db :=
  match db.payments.find? (fun p => p.id == pid) with
  | none => (.error (.notFound "Payment"), db)
  | some fresh =>
    if fresh.ordersCreated then (.ok fresh.orderIds, db)
    else if orderClaimCond fresh now then
      let fresh₁ :=
        { fresh with orderCreationError := some "in_progress", updatedAt := now }
      let db₁ := db.updatePayment pid fun _ => fresh₁
      match fresh.checkoutData with
      | none =>
        let msg := "No checkout data found in payment"
        (.error (.validation msg),
          db₁.updatePayment pid fun p =>
            { p with orderCreationError := some msg, ordersCreated := false })
      | some cd =>
        if cd.items = [] then
          let msg := "No items found in checkout data"
          (.error (.validation msg),
            db₁.updatePayment pid fun p =>
              { p with orderCreationError := some msg, ordersCreated := false })
        else
          let groups := groupByVendor cd.items
          if groups = [] then
            let msg := "No valid items with vendorId found"
            (.error (.validation msg),
              db₁.updatePayment pid fun p =>
                { p with orderCreationError := some msg, ordersCreated := false })
          else
            let step := materializeGroups fresh.userId pid groups ([], [], db₁.nextId)
            let createdOrders := step.1
            let createdOrderIds := step.2.1
            let db₂ :=
              { db₁ with orders := db₁.orders ++ createdOrders, nextId := step.2.2 }
            let db₃ := db₂.updatePayment pid fun p =>
              { p with orderIds := createdOrderIds, ordersCreated := true,
                       orderCreationError := none }
            (.ok createdOrderIds, db₃)
    else
      (.ok fresh.orderIds, db)

/-- Status of an idempotency-guard record. -/
inductive IdemStatus
  | started
  | completed
deriving DecidableEq, Repr

/-- A record of the idempotency-guard collection. -/
structure IdemRecord (ρ : Type) where
  key : String
  userId : Nat
  route : String
  requestHash : String
  status : IdemStatus
  response : Option ρ
deriving DecidableEq, Repr

/-- Failures of the idempotency guard: the two 409 conflicts it raises, the
duplicate-key error of the unique index on the key field, and propagation
of a handler failure. -/
inductive IdemError
  | conflictPayload
  | inProgress
  | duplicateKey
  | handlerError (msg : String)
deriving DecidableEq, Repr

/-- Request-body hash of the idempotency guard. -/
def hashBody (body : String) : String := sha256Hex body

/-- Remove the first element matching the predicate (deleteOne). -/
def eraseFirstP {α : Type} (p : α → Bool) : List α → List α
  | [] => []
  | x :: xs => if p x then xs else x :: eraseFirstP p xs

/-- Function `withIdempotency` of the subscription module: a missing key —
also an empty string, since the source tests the key for truthiness — runs
the handler directly; a completed record for (key, userId, route) replays
the stored response when the request hash matches and 409-conflicts
otherwise; a started record 409-conflicts (payload conflict on hash
mismatch, already-in-progress on match); with no such record the guard
creates a started record — the collection holds a unique index on the key
field alone, so when any record of the store already carries the key the
create throws a duplicate-key error before the handler runs — then runs
the handler, completes the record with the response on success and deletes
it on failure.  The handler is a pure outcome; the Bool of the result
records whether it ran. -/
def withIdempotency {ρ : Type} (key : Option String) (userId : Nat)
    (route : String) (body : String) (handler : Except String ρ)
    (store : List (IdemRecord ρ)) :
    Except IdemError (Option ρ) × List (IdemRecord ρ) × Bool :=
  match key with
  | none =>
    match handler with
    | .ok r => (.ok (some r), store, true)
    | .error e => (.error (.handlerError e), store, true)
  | some k =>
    if k = "" then
      match handler with
      | .ok r => (.ok (some r), store, true)
      | .error e => (.error (.handlerError e), store, true)
    else
      let requestHash := hashBody body
      let sameRec : IdemRecord ρ → Bool := fun q =>
        q.key == k && q.userId == userId && q.route == route
      match store.find? sameRec with
      | some existing =>
        if existing.status = .completed then
          if existing.requestHash ≠ requestHash then
            (.error .conflictPayload, store, false)
          else (.ok existing.response, store, false)
        else
          if existing.requestHash ≠ requestHash then
            (.error .conflictPayload, store, false)
          else (.error .inProgress, store, false)
      | none =>
        if store.any (fun q => q.key == k) then
          (.error .duplicateKey, store, false)
        else
          let startedRec : IdemRecord ρ :=
            { key := k, userId := userId, route := route,
              requestHash := requestHash, status := .started, response := none }
          let store₁ := store ++ [startedRec]
          match handler with
          | .ok r =>
            let store₂ := (findOneAndUpdateL sameRec
              (fun q => { q with status := .completed, response := some r }) store₁).2
            (.ok (some r), store₂, true)
          | .error e =>
            (.error (.handlerError e), eraseFirstP sameRec store₁, true)

/-- Signed contribution of one ledger row to a wallet balance: credits count
positively and debits negatively, over completed rows of that wallet. -/
def txDelta (wid : Nat) (t : WalletTx) : ℚ :=
  if t.wallet = wid ∧ t.status = "completed" then
    match t.txType with
    | .credit => t.amount
    | .debit => -t.amount
  else 0

/-- Balance of a wallet reconstructed from the completed WalletTransaction
ledger: sum of credits minus sum of debits. -/
def ledgerSum (db : Db) (wid : Nat) : ℚ :=
  (db.walletTxs.map (txDelta wid)).sum

/-- The consistency invariant of spec section 8: every cached wallet balance
equals the completed-ledger sum for that wallet. -/
def walletLedgerInvariant (db : Db) : Prop :=
  ∀ w ∈ db.wallets, w.balance = ledgerSum db w.id

instance (db : Db) : Decidable (walletLedgerInvariant db) := by
  unfold walletLedgerInvariant; infer_instance

/-- Well-formedness of a database state: document ids are unique and below
the fresh-id supply. -/
structure Db.WF (db : Db) : Prop where
  walletIdsNodup : (db.wallets.map VendorWallet.id).Nodup
  walletIdsLt : ∀ w ∈ db.wallets, w.id < db.nextId
  txWalletLt : ∀ t ∈ db.walletTxs, t.wallet < db.nextId
  paymentIdsNodup : (db.payments.map Payment.id).Nodup
  paymentIdsLt : ∀ p ∈ db.payments, p.id < db.nextId
  commissionIdsNodup : (db.commissions.map Commission.id).Nodup

instance {ε α : Type _} [DecidableEq ε] [DecidableEq α] :
    DecidableEq (Except ε α) := fun x y =>
  match x, y with
  | .ok a, .ok b =>
    if h : a = b then .isTrue (by rw [h])
    else .isFalse (by intro he; cases he; exact h rfl)
  | .error a, .error b =>
    if h : a = b then .isTrue (by rw [h])
    else .isFalse (by intro he; cases he; exact h rfl)
  | .ok _, .error _ => .isFalse (by intro he; cases he)
  | .error _, .ok _ => .isFalse (by intro he; cases he)

/-- The empty database with fresh ids starting at 1. -/
def emptyDb : Db :=
  { payments := [], wallets := [], walletTxs := [], commissions := [],
    orders := [], vendors := [], nextId := 1 }

/-- The Payment row that `createCashIn` persists for a 10000-centavo
cash-in with caller key key-1 on the empty database. -/
def c4pay : Payment :=
  { Payment.base with
    id := 1, userId := 7, ptype := .cash_in, amount := 10000, fee := 150,
    netAmount := 9850, status := .awaiting_payment,
    idempotencyKey := some "key-1", paymentIntentId := some "pi_key-1" }

/-- Database state after that cash-in creation. -/
def c4db1 : Db := { emptyDb with payments := [c4pay], nextId := 2 }

/-- The cash-in payment after the wallet credit stamped it. -/
def c4pay2 : Payment :=
  { c4pay with walletCredited := true, walletCreditedAt := some 1000 }

/-- Literal-string evaluation facts used to reduce the scenario runs. -/
lemma toLower_trim_qrph : "qrph".toLower.trim = "qrph" := by with_unfolding_all rfl

/-- Trimming the concrete caller key is the identity. -/
lemma trim_key1 : "key-1".trim = "key-1" := by with_unfolding_all rfl

/-- C8 counterexample: a zero-amount checkout on the empty database is
accepted, yet the gateway-call trace of the run contains the
createPaymentIntent call, so gateway payment-intent creation is not
bypassed. -/
theorem C8_counterexample :
    (createCheckoutPayment 1 99 0 "k" emptyDb).1.toOption.isSome = true ∧
    (createCheckoutPayment 1 99 0 "k" emptyDb).2.2 = ["createPaymentIntent"] ∧
    (createCheckoutPayment 1 99 0 "k" emptyDb).2.2 ≠ [] := by
  refine ⟨?_, ?_, ?_⟩ <;>
    simp [createCheckoutPayment, emptyDb, savePayment, preSaveNetAmount, Payment.base,
      Except.toOption]

/-- C8 amended: `createCheckoutPayment` accepts amount 0 (its amount
validation rejects only negative amounts) and for zero amounts it skips the
order lookup and ownership check, but it still calls the gateway
createPaymentIntent; there is no zero-amount gateway bypass. -/
theorem C8_amended :
    (∀ (uid oid : Nat) (key : String) (db : Db) (amt : ℤ), amt < 0 →
      createCheckoutPayment uid oid amt key db =
        (.error (.validation "Amount must be at least 0 PHP (0 centavos)"), db, [])) ∧
    (∀ (uid oid : Nat) (key : String) (db : Db),
      db.payments.find? (fun p =>
        p.orderId == some oid && p.status == PaymentStatus.succeeded) = none →
      (createCheckoutPayment uid oid 0 key db).1.toOption.isSome = true ∧
        (createCheckoutPayment uid oid 0 key db).2.2 = ["createPaymentIntent"]) := by
  constructor
  · intro uid oid key db amt h
    unfold createCheckoutPayment
    rw [if_pos h]
  · intro uid oid key db hfind
    refine ⟨?_, ?_⟩ <;>
      simp [createCheckoutPayment, hfind, savePayment, preSaveNetAmount, Except.toOption]

/-- C8 witness: the amended theorem applied at concrete inputs. -/
theorem C8_witness :
    ((-5 : ℤ) < 0 ∧
      createCheckoutPayment 1 99 (-5) "k" emptyDb =
        (.error (.validation "Amount must be at least 0 PHP (0 centavos)"), emptyDb, [])) ∧
    (emptyDb.payments.find? (fun p =>
        p.orderId == some 99 && p.status == PaymentStatus.succeeded) = none ∧
      (createCheckoutPayment 1 99 0 "k2" emptyDb).1.toOption.isSome = true ∧
        (createCheckoutPayment 1 99 0 "k2" emptyDb).2.2 = ["createPaymentIntent"]) :=
  ⟨⟨by norm_num, C8_amended.1 1 99 "k" emptyDb (-5) (by norm_num)⟩,
   ⟨by simp [emptyDb], C8_amended.2 1 99 "k2" emptyDb (by simp [emptyDb])⟩⟩

/-- Literal-string evaluations for the withdrawal scenarios. -/
lemma toLower_gcash : "gcash".toLower = "gcash" := by with_unfolding_all rfl

/-- Trimming the literal account number is the identity. -/
lemma trim_0917 : "0917".trim = "0917" := by with_unfolding_all rfl

/-- Trimming the literal account name is the identity. -/
lemma trim_V : "V".trim = "V" := by with_unfolding_all rfl

/-- Trimming the literal bank name is the identity. -/
lemma trim_GCash : "GCash".trim = "GCash" := by with_unfolding_all rfl

/-- Payout destination of the C5 scenario. -/
def c5bank : BankAccount :=
  { accountNumber := "0917", accountName := "V", bankName := "GCash" }

/-- C5 initial state: the vendor wallet holds exactly 100 wallet-currency
units, just enough for one 10000-centavo withdrawal. -/
def c5db0 : Db :=
  { emptyDb with
    wallets := [{ id := 1, user := 5, balance := 100, transactions := [] }],
    nextId := 2 }

/-- The withdrawal Payment row that the first call persists. -/
def c5pay : Payment :=
  { Payment.base with
    id := 2, userId := 5, ptype := .withdraw, amount := 10000, fee := 100,
    netAmount := 9900, status := .pending,
    idempotencyKey := some (withdrawDerivedKey 5 10000 "gcash" "0917" "V" "GCash"),
    bankAccount := some c5bank }

/-- The inline-log entry the withdrawal debit pushes. -/
def c5debitLog : InlineTx :=
  { txType := .debit, amount := 100, description := "Vendor Withdrawal" }

/-- State after the first withdrawal: the Payment row exists and the wallet
was debited to zero. -/
def c5db1 : Db :=
  { emptyDb with
    payments := [c5pay],
    wallets := [{ id := 1, user := 5, balance := 0, transactions := [c5debitLog] }],
    nextId := 3 }

/-- The completed ledger row behind the C1 scenario wallet balance. -/
def c1tx : WalletTx :=
  { id := 2, wallet := 1, user := 5, txType := .credit, amount := 200,
    referenceType := "topup", referenceId := 0, status := "completed",
    balanceBefore := 0, balanceAfter := 200 }

/-- C1 scenario state: one wallet whose balance of 200 matches its single
completed credit ledger row. -/
def c1db : Db :=
  { emptyDb with
    wallets := [{ id := 1, user := 5, balance := 200, transactions := [] }],
    walletTxs := [c1tx],
    nextId := 3 }

/-- A ledger row of another wallet contributes nothing. -/
lemma txDelta_ne (wid : Nat) (t : WalletTx) (h : t.wallet ≠ wid) :
    txDelta wid t = 0 := by
  rw [txDelta, if_neg]
  rintro ⟨h1, _⟩
  exact h h1

/-- A completed credit row of this wallet contributes its amount. -/
lemma txDelta_credit (wid : Nat) (t : WalletTx) (hw : t.wallet = wid)
    (hs : t.status = "completed") (hc : t.txType = .credit) :
    txDelta wid t = t.amount := by
  rw [txDelta, if_pos ⟨hw, hs⟩, hc]

/-- A completed debit row of this wallet contributes minus its amount. -/
lemma txDelta_debit (wid : Nat) (t : WalletTx) (hw : t.wallet = wid)
    (hs : t.status = "completed") (hc : t.txType = .debit) :
    txDelta wid t = -t.amount := by
  rw [txDelta, if_pos ⟨hw, hs⟩, hc]

/-- A ledger naming only other wallets sums to zero for this wallet. -/
lemma sumDelta_zero (wid : Nat) (L : List WalletTx)
    (h : ∀ t ∈ L, t.wallet ≠ wid) : (L.map (txDelta wid)).sum = 0 := by
  apply List.sum_eq_zero
  intro x hx
  rw [List.mem_map] at hx
  obtain ⟨t, ht, rfl⟩ := hx
  exact txDelta_ne wid t (h t ht)

/-- The wallet get-or-create never touches the transaction ledger. -/
lemma getOrCreateForUser_walletTxs (uid : Nat) (db : Db) :
    (getOrCreateForUser uid db).2.walletTxs = db.walletTxs := by
  unfold getOrCreateForUser
  split <;> rfl

/-- Decomposition of a successful single-document conditional update: the
list splits at the first match, which alone is replaced. -/
lemma findOneAndUpdateL_some_decomp {α : Type} (p : α → Bool) (f : α → α)
    (l : List α) (y : α) (h : (findOneAndUpdateL p f l).1 = some y) :
    ∃ l₁ w l₂, l = l₁ ++ w :: l₂ ∧ (∀ x ∈ l₁, p x = false) ∧ p w = true ∧
      y = f w ∧ (findOneAndUpdateL p f l).2 = l₁ ++ f w :: l₂ := by
  induction l with
  | nil => simp [findOneAndUpdateL] at h
  | cons x xs ih =>
    by_cases hx : p x
    · refine ⟨[], x, xs, rfl, by simp, hx, ?_, ?_⟩ <;>
        simp [findOneAndUpdateL, hx] at h ⊢
      exact h.symm
    · rw [findOneAndUpdateL, if_neg hx] at h
      obtain ⟨l₁, w, l₂, hxs, hall, hw, hy, h2⟩ := ih h
      refine ⟨x :: l₁, w, l₂, by rw [hxs]; rfl, ?_, hw, hy, ?_⟩
      · intro z hz
        rcases List.mem_cons.mp hz with hz | hz
        · subst hz; exact Bool.of_not_eq_true hx
        · exact hall z hz
      · rw [findOneAndUpdateL, if_neg hx]
        simpa using h2

/-- Full outcome analysis of `remitCommissionViaWallet`: it either fails
leaving the database untouched, or succeeds having appended exactly one
completed debit ledger row, decremented exactly one wallet, and updated
exactly the target commission. -/
lemma remit_spec (cid vid uid now : Nat) (cb : Breaker) (db : Db)
    (res : Except SvcError RemitOk × Breaker × Db)
    (h : remitCommissionViaWallet cid vid uid now cb db = res) :
    (∃ e, res.1 = .error e ∧ res.2.2 = db) ∨
    (∃ r c w0 l₁ l₂ w,
      res.1 = .ok r ∧
      ensureCommissionForRemit cid vid db = some c ∧
      (db.commissions.any fun x =>
        x.remittanceIdempotencyKey == some (generateIdempotencyKey cid vid)) = false ∧
      db.wallets.find? (fun x => x.user == vid) = some w0 ∧
      db.wallets = l₁ ++ w :: l₂ ∧
      (∀ x ∈ l₁,
        (x.id == w0.id && decide (c.commissionAmount ≤ x.balance)) = false) ∧
      w.id = w0.id ∧
      c.commissionAmount ≤ w.balance ∧
      0 < c.commissionAmount ∧
      r.transaction =
        { id := db.nextId, wallet := w0.id, user := vid, txType := .debit,
          amount := c.commissionAmount, referenceType := "commission",
          referenceId := c.id, status := "completed",
          balanceBefore := w0.balance,
          balanceAfter := w0.balance - c.commissionAmount } ∧
      r.newBalance = w.balance - c.commissionAmount ∧
      r.commission.id = c.id ∧
      r.commission.vendor = c.vendor ∧
      r.commission.status = .remitted ∧
      r.commission.commissionAmount = c.commissionAmount ∧
      r.commission.remittanceIdempotencyKey =
        some (generateIdempotencyKey cid vid) ∧
      r.commission.remittanceHistory = c.remittanceHistory ++
        [{ amount := c.commissionAmount, method := "wallet", status := "completed" }] ∧
      r.commission.statusHistory = c.statusHistory ++
        [{ status := .remitted, changedBy := some uid,
           reason := "Remitted via wallet deduction" }] ∧
      res.2.2 =
        { db with
          wallets := l₁ ++
            { w with
              balance := w.balance - c.commissionAmount,
              transactions := w.transactions ++
                [{ txType := TxType.debit, amount := c.commissionAmount, description := "Commission remittance" }] } :: l₂,
          walletTxs := db.walletTxs ++ [r.transaction],
          commissions := db.commissions.map fun x =>
            if x.id = c.id then r.commission else x,
          nextId := db.nextId + 1 }) := by
  simp only [remitCommissionViaWallet] at h
  by_cases hc : ¬(checkCircuitBreaker now cb).1 = true
  · rw [if_pos hc] at h
    exact Or.inl ⟨_, by rw [← h], by rw [← h]⟩
  · rw [if_neg hc] at h
    cases hens : ensureCommissionForRemit cid vid db with
    | none =>
      simp only [hens] at h
      exact Or.inl ⟨_, by rw [← h], by rw [← h]⟩
    | some commission =>
      simp only [hens] at h
      by_cases hdup : (db.commissions.any fun x =>
          x.remittanceIdempotencyKey == some (generateIdempotencyKey cid vid)) = true
      · rw [if_pos hdup] at h
        exact Or.inl ⟨_, by rw [← h], by rw [← h]⟩
      · rw [if_neg hdup] at h
        simp only [getOrCreateVendorWalletInSession, Db.updateCommission] at h
        cases hfind : db.wallets.find? (fun x => x.user == vid) with
        | none =>
          simp only [hfind] at h
          by_cases hneg : commission.commissionAmount ≤ 0
          · rw [if_pos hneg] at h
            exact Or.inl ⟨_, by rw [← h], by rw [← h]⟩
          · rw [if_neg hneg] at h
            rw [if_pos (by simpa using not_le.mp hneg)] at h
            exact Or.inl ⟨_, by rw [← h], by rw [← h]⟩
        | some w0 =>
          simp only [hfind] at h
          by_cases hneg : commission.commissionAmount ≤ 0
          · rw [if_pos hneg] at h
            exact Or.inl ⟨_, by rw [← h], by rw [← h]⟩
          · rw [if_neg hneg] at h
            by_cases hbal : w0.balance < commission.commissionAmount
            · rw [if_pos hbal] at h
              exact Or.inl ⟨_, by rw [← h], by rw [← h]⟩
            · rw [if_neg hbal] at h
              cases hupd : (findOneAndUpdateL
                  (fun w => w.id == w0.id &&
                    decide (commission.commissionAmount ≤ w.balance))
                  (fun w =>
                    { w with
                      balance := w.balance - commission.commissionAmount,
                      transactions := w.transactions ++
                        [{ txType := TxType.debit, amount := commission.commissionAmount, description := "Commission remittance" }] })
                  db.wallets).1 with
              | none =>
                simp only [hupd] at h
                exact Or.inl ⟨_, by rw [← h], by rw [← h]⟩
              | some u =>
                simp only [hupd] at h
                obtain ⟨l₁, w, l₂, hsplit, hall, hpw, hu, h2⟩ :=
                  findOneAndUpdateL_some_decomp _ _ _ _ hupd
                rw [Bool.and_eq_true, beq_iff_eq, decide_eq_true_eq] at hpw
                obtain ⟨hwid, hwbal⟩ := hpw
                rw [h2] at h
                refine Or.inr ⟨_, commission, w0, l₁, l₂, w,
                  by rw [← h], rfl, Bool.of_not_eq_true hdup, rfl, hsplit,
                  hall, hwid, hwbal, not_le.mp hneg,
                  rfl, by rw [hu], rfl,
                  rfl, rfl, rfl, rfl,
                  rfl, rfl, ?_⟩
                rw [← h]
                simp only [List.map_map]
                congr 1
                apply List.map_congr_left
                intro x _
                by_cases hx : x.id = commission.id <;> simp [hx]

/-- Crediting a cash-in preserves the wallet-ledger consistency invariant:
the balance increment and the appended completed credit row move together
inside one transaction. -/
lemma processCashInSuccess_preserves_invariant (p : Payment) (now : Nat) (db : Db)
    (hwf : Db.WF db) (hinv : walletLedgerInvariant db) :
    walletLedgerInvariant (processCashInSuccess p now db).2 := by
  unfold processCashInSuccess
  split
  · exact hinv
  split
  · exact hinv
  cases hfind : db.wallets.find? (fun w => w.user == p.userId) with
  | some w0 =>
    simp only [getOrCreateForUser, hfind, Db.updateWallet, Db.updatePayment]
    intro w' hw'
    rw [List.mem_map] at hw'
    obtain ⟨w, hwmem, rfl⟩ := hw'
    have hbal := hinv w hwmem
    rw [ledgerSum] at hbal
    by_cases hid : w.id = w0.id
    · simp only [if_pos hid, ledgerSum, List.map_append, List.sum_append]
      simp [txDelta, hid, ← hbal]
      rw [hid] at hbal
      exact hbal
    · have hne : w0.id ≠ w.id := fun hh => hid hh.symm
      simp only [if_neg hid, ledgerSum, List.map_append, List.sum_append]
      simp [txDelta, hne, ← hbal]
  | none =>
    simp only [getOrCreateForUser, hfind, Db.updateWallet, Db.updatePayment]
    intro w' hw'
    rw [List.mem_map] at hw'
    obtain ⟨w, hwmem, rfl⟩ := hw'
    rcases List.mem_append.mp hwmem with hmem | hmem
    · have hlt := hwf.walletIdsLt w hmem
      have hid : ¬ w.id = db.nextId := by omega
      have hne : db.nextId ≠ w.id := by omega
      have hbal := hinv w hmem
      rw [ledgerSum] at hbal
      simp only [if_neg hid, ledgerSum, List.map_append, List.sum_append]
      simp [txDelta, hne, ← hbal]
    · rcases List.mem_singleton.mp hmem with rfl
      simp only [ledgerSum, List.map_append, List.sum_append]
      have hz : ((db.walletTxs.map (txDelta db.nextId)).sum : ℚ) = 0 := by
        apply sumDelta_zero
        intro t ht
        have := hwf.txWalletLt t ht
        omega
      simp [txDelta, hz]

/-- Remitting a commission preserves the wallet-ledger consistency
invariant: failures leave the database untouched and success debits the
balance together with the appended completed debit row. -/
lemma remit_preserves_invariant (cid vid uid now : Nat) (cb : Breaker) (db : Db)
    (hwf : Db.WF db) (hinv : walletLedgerInvariant db) :
    walletLedgerInvariant (remitCommissionViaWallet cid vid uid now cb db).2.2 := by
  rcases remit_spec cid vid uid now cb db _ rfl with ⟨e, h1, h2⟩ |
    ⟨r, c, w0, l₁, l₂, w, hok, hens, hdup, hfind, hsplit, hall, hwid, hwbal,
      hpos, htx, hnb, _, _, _, _, _, _, _, hdb⟩
  · rw [h2]; exact hinv
  · rw [hdb]
    have hnodup := hwf.walletIdsNodup
    rw [hsplit, List.map_append, List.map_cons, List.nodup_append] at hnodup
    obtain ⟨-, hnd2, hdisj⟩ := hnodup
    rw [List.nodup_cons] at hnd2
    obtain ⟨hwnotin, -⟩ := hnd2
    intro w' hw'
    rcases List.mem_append.mp hw' with hmem | hmem
    · have hxid : w'.id ≠ w.id := fun hh =>
        hdisj (List.mem_map_of_mem _ hmem) (by simp [hh])
      have hxmem : w' ∈ db.wallets := by
        rw [hsplit]; exact List.mem_append_left _ hmem
      have hbal := hinv w' hxmem
      rw [ledgerSum] at hbal
      have hne : r.transaction.wallet ≠ w'.id := by
        rw [htx]
        simp only []
        rw [← hwid]
        exact fun hh => hxid hh.symm
      simp only [ledgerSum, List.map_append, List.sum_append]
      simp [txDelta_ne _ _ hne, ← hbal]
    · rcases List.mem_cons.mp hmem with rfl | hmem
      · have hxmem : w ∈ db.wallets := by
          rw [hsplit]; exact List.mem_append_right _ (List.mem_cons_self _ _)
        have hbal := hinv w hxmem
        rw [ledgerSum] at hbal
        have hdel : txDelta w.id r.transaction = -c.commissionAmount := by
          rw [htx]
          exact txDelta_debit _ _ (by simp [hwid]) rfl rfl
        simp only [ledgerSum, List.map_append, List.sum_append]
        simp [hdel, ← hbal]
        ring
      · have hxid : w'.id ≠ w.id := fun hh => by
          apply hwnotin
          rw [← hh]
          exact List.mem_map_of_mem _ hmem
        have hxmem : w' ∈ db.wallets := by
          rw [hsplit]
          exact List.mem_append_right _ (List.mem_cons_of_mem _ hmem)
        have hbal := hinv w' hxmem
        rw [ledgerSum] at hbal
        have hne : r.transaction.wallet ≠ w'.id := by
          rw [htx]
          simp only []
          rw [← hwid]
          exact fun hh => hxid hh.symm
        simp only [ledgerSum, List.map_append, List.sum_append]
        simp [txDelta_ne _ _ hne, ← hbal]

/-- Withdrawal creation never writes a WalletTransaction ledger row on any
path. -/
lemma createWithdrawal_walletTxs (vid : Nat) (amt : ℤ) (bank : BankAccount)
    (m : String) (k : Option String) (db : Db) :
    (createWithdrawal vid amt bank m k db).2.walletTxs = db.walletTxs := by
  unfold createWithdrawal
  repeat' split
  all_goals try rfl
  all_goals try simp [getOrCreateForUser_walletTxs]
  all_goals repeat' split
  all_goals try rfl
  all_goals simp [getOrCreateForUser_walletTxs]

/-- Withdrawal rejection never writes a WalletTransaction ledger row on any
path. -/
lemma rejectWithdrawal_walletTxs (aid pid : Nat) (db : Db) :
    (rejectWithdrawal aid pid db).2.walletTxs = db.walletTxs := by
  unfold rejectWithdrawal
  repeat' split
  all_goals simp [Db.updatePayment]



/-- When no prefix element matches and the appended element does, the
conditional update rewrites exactly the appended element. -/
lemma findOneAndUpdateL_append_singleton {α : Type} (p : α → Bool) (f : α → α)
    (l : List α) (x : α) (h : ∀ y ∈ l, p y = false) (hx : p x = true) :
    (findOneAndUpdateL p f (l ++ [x])).2 = l ++ [f x] := by
  induction l with
  | nil => simp [findOneAndUpdateL, hx]
  | cons a as ih =>
    have ha : p a = false := h a (List.mem_cons_self _ _)
    simp only [List.cons_append, findOneAndUpdateL, ha, Bool.false_eq_true,
      if_false, List.cons.injEq, true_and]
    exact ih fun y hy => h y (List.mem_cons_of_mem _ hy)

/-- When no prefix element matches and the appended element does, deleting
the first match removes exactly the appended element. -/
lemma eraseFirstP_append_singleton {α : Type} (p : α → Bool)
    (l : List α) (x : α) (h : ∀ y ∈ l, p y = false) (hx : p x = true) :
    eraseFirstP p (l ++ [x]) = l := by
  induction l with
  | nil => simp [eraseFirstP, hx]
  | cons a as ih =>
    have ha : p a = false := h a (List.mem_cons_self _ _)
    simp only [List.cons_append, eraseFirstP, ha, Bool.false_eq_true, if_false,
      List.cons.injEq, true_and]
    exact ih fun y hy => h y (List.mem_cons_of_mem _ hy)

/-- The completed record the guard stores after a fresh successful run. -/
def completedRec {ρ : Type} (k : String) (uid : Nat) (route body : String)
    (r : ρ) : IdemRecord ρ :=
  { key := k, userId := uid, route := route, requestHash := hashBody body,
    status := .completed, response := some r }

/-- The started record of the C7 scenario: same key, user and route, but a
request hash of a different body. -/
def c7startedRec : IdemRecord Nat :=
  { key := "k", userId := 1, route := "r", requestHash := hashBody "other",
    status := .started, response := none }

/-- C7 counterexample: a started record whose stored hash does not match
the retried body is rejected as a payload conflict, not as already in
progress (the handler still does not run). -/
theorem C7_counterexample :
    withIdempotency (some "k") 1 "r" "b" (.ok 5) [c7startedRec] =
      (.error .conflictPayload, [c7startedRec], false) ∧
    (.error .conflictPayload :
        Except IdemError (Option Nat)) ≠ .error .inProgress := by
  constructor
  · simp [withIdempotency, c7startedRec, hashBody, sha256Hex]
  · simp

/-- C7 amended: the guard contract of `withIdempotency`.  With no key — or
an empty-string key, which the source treats as absent — the handler runs
directly.  With a key: a completed record for (key, userId, route) replays
the stored response when the hash matches and 409-conflicts otherwise; a
started record is rejected without running the handler — as already in
progress when the stored hash matches the body, and as a payload conflict
when it does not; when no record of the store carries the key at all, a
started record is inserted, the handler runs, and the record is completed
with the response on success or deleted on failure so a retry is not
blocked; and when no record matches (key, userId, route) but some record
of the store carries the same key — the collection is unique on the key
alone — the create of the started record fails with a duplicate-key error
before the handler runs and the store is unchanged. -/
theorem C7_amended {ρ : Type} :
    (∀ (uid : Nat) (route body : String) (handler : Except String ρ)
      (store : List (IdemRecord ρ)),
      withIdempotency (some "") uid route body handler store =
        withIdempotency none uid route body handler store ∧
      (withIdempotency none uid route body handler store).2.1 = store ∧
      (withIdempotency none uid route body handler store).2.2 = true ∧
      (∀ r, handler = .ok r →
        (withIdempotency none uid route body handler store).1 = .ok (some r)) ∧
      (∀ e, handler = .error e →
        (withIdempotency none uid route body handler store).1 =
          .error (.handlerError e))) ∧
    (∀ (k : String) (uid : Nat) (route body : String)
      (handler : Except String ρ) (store : List (IdemRecord ρ))
      (q : IdemRecord ρ), k ≠ "" →
      store.find? (fun x => x.key == k && x.userId == uid && x.route == route)
        = some q →
      ((q.status = .completed → q.requestHash = hashBody body →
          withIdempotency (some k) uid route body handler store =
            (.ok q.response, store, false)) ∧
       (q.status = .completed → q.requestHash ≠ hashBody body →
          withIdempotency (some k) uid route body handler store =
            (.error .conflictPayload, store, false)) ∧
       (q.status = .started → q.requestHash = hashBody body →
          withIdempotency (some k) uid route body handler store =
            (.error .inProgress, store, false)) ∧
       (q.status = .started → q.requestHash ≠ hashBody body →
          withIdempotency (some k) uid route body handler store =
            (.error .conflictPayload, store, false)))) ∧
    (∀ (k : String) (uid : Nat) (route body : String)
      (store : List (IdemRecord ρ)) (r : ρ), k ≠ "" →
      store.any (fun x => x.key == k) = false →
      withIdempotency (some k) uid route body (.ok r) store =
        (.ok (some r), store ++ [completedRec k uid route body r], true)) ∧
    (∀ (k : String) (uid : Nat) (route body : String)
      (store : List (IdemRecord ρ)) (e : String), k ≠ "" →
      store.any (fun x => x.key == k) = false →
      withIdempotency (some k) uid route body (.error e) store =
        (.error (.handlerError e), store, true)) ∧
    (∀ (k : String) (uid : Nat) (route body : String)
      (handler : Except String ρ) (store : List (IdemRecord ρ)), k ≠ "" →
      store.find? (fun x => x.key == k && x.userId == uid && x.route == route)
        = none →
      store.any (fun x => x.key == k) = true →
      withIdempotency (some k) uid route body handler store =
        (.error .duplicateKey, store, false)) := by
  refine ⟨?_, ?_, ?_, ?_, ?_⟩
  · intro uid route body handler store
    refine ⟨?_, ?_, ?_, ?_, ?_⟩
    · cases handler <;> rfl
    · cases handler <;> rfl
    · cases handler <;> rfl
    · intro r hr; subst hr; rfl
    · intro e he; subst he; rfl
  · intro k uid route body handler store q hk hfind
    refine ⟨?_, ?_, ?_, ?_⟩
    · intro hst hhash
      simp [withIdempotency, hk, hfind, hst, hhash]
    · intro hst hhash
      simp [withIdempotency, hk, hfind, hst, hhash]
    · intro hst hhash
      have : ¬ q.status = IdemStatus.completed := by rw [hst]; simp
      simp [withIdempotency, hk, hfind, this, hhash]
    · intro hst hhash
      have : ¬ q.status = IdemStatus.completed := by rw [hst]; simp
      simp [withIdempotency, hk, hfind, this, hhash]
  · intro k uid route body store r hk hany
    have hkeyF : ∀ y ∈ store, (y.key == k) = false := by
      intro y hy
      exact Bool.of_not_eq_true (by simpa using List.any_eq_false.mp hany y hy)
    have hnone : ∀ y ∈ store,
        (y.key == k && y.userId == uid && y.route == route) = false := by
      intro y hy; simp [hkeyF y hy]
    have hfind : store.find?
        (fun x => x.key == k && x.userId == uid && x.route == route) = none :=
      List.find?_eq_none.mpr (fun y hy => by simp [hnone y hy])
    simp only [withIdempotency, if_neg hk, hfind, hany, Bool.false_eq_true,
      if_false]
    rw [findOneAndUpdateL_append_singleton _ _ _ _ hnone (by simp)]
    simp [completedRec]
  · intro k uid route body store e hk hany
    have hkeyF : ∀ y ∈ store, (y.key == k) = false := by
      intro y hy
      exact Bool.of_not_eq_true (by simpa using List.any_eq_false.mp hany y hy)
    have hnone : ∀ y ∈ store,
        (y.key == k && y.userId == uid && y.route == route) = false := by
      intro y hy; simp [hkeyF y hy]
    have hfind : store.find?
        (fun x => x.key == k && x.userId == uid && x.route == route) = none :=
      List.find?_eq_none.mpr (fun y hy => by simp [hnone y hy])
    simp only [withIdempotency, if_neg hk, hfind, hany, Bool.false_eq_true,
      if_false]
    rw [eraseFirstP_append_singleton _ _ _ hnone (by simp)]
  · intro k uid route body handler store hk hfind hany
    simp only [withIdempotency, if_neg hk, hfind, hany, if_true]

/-- C7 witness: the amended contract applied at concrete inputs, one per
branch — empty key, no key, mismatched started record, fresh key with a
succeeding and with a failing handler, and a cross-user duplicate key. -/
theorem C7_witness :
    ((withIdempotency (ρ := Nat) (some "") 1 "r" "b" (.ok 5) [] =
        withIdempotency none 1 "r" "b" (.ok 5) []) ∧
     (withIdempotency (ρ := Nat) none 1 "r" "b" (.ok 5) []).2.1 = [] ∧
     (withIdempotency (ρ := Nat) none 1 "r" "b" (.ok 5) []).2.2 = true ∧
     (∀ r, (.ok 5 : Except String Nat) = .ok r →
       (withIdempotency (ρ := Nat) none 1 "r" "b" (.ok 5) []).1 = .ok (some r)) ∧
     (∀ e, (.ok 5 : Except String Nat) = .error e →
       (withIdempotency (ρ := Nat) none 1 "r" "b" (.ok 5) []).1 =
         .error (.handlerError e))) ∧
    withIdempotency (some "k") 1 "r" "other" (.ok 7) [c7startedRec] =
      (.error .inProgress, [c7startedRec], false) ∧
    withIdempotency (ρ := Nat) (some "k2") 2 "r2" "b2" (.ok 9) [] =
      (.ok (some 9), [completedRec "k2" 2 "r2" "b2" 9], true) ∧
    withIdempotency (ρ := Nat) (some "k3") 3 "r3" "b3" (.error "boom") [] =
      (.error (.handlerError "boom"), [], true) ∧
    withIdempotency (ρ := Nat) (some "k") 2 "r" "b" (.ok 9) [c7startedRec] =
      (.error .duplicateKey, [c7startedRec], false) := by
  refine ⟨C7_amended.1 1 "r" "b" (.ok 5) [], ?_, ?_, ?_, ?_⟩
  · exact (C7_amended.2.1 "k" 1 "r" "other" (.ok 7) [c7startedRec]
      c7startedRec (by decide) (by simp [c7startedRec])).2.2.1 rfl rfl
  · exact C7_amended.2.2.1 "k2" 2 "r2" "b2" [] 9 (by decide) rfl
  · exact C7_amended.2.2.2.1 "k3" 3 "r3" "b3" [] "boom" (by decide) rfl
  · exact C7_amended.2.2.2.2 "k" 2 "r" "b" (.ok 9) [c7startedRec] (by decide)
      (by simp [c7startedRec]) (by simp [c7startedRec])



/-- The materializer loop creates exactly one order and one id per vendor
group. -/
lemma materializeGroups_lengths (uid pid : Nat)
    (gs : List (Nat × List CheckoutItem)) (st : List OrderDoc × List Nat × Nat) :
    (materializeGroups uid pid gs st).1.length = st.1.length + gs.length ∧
    (materializeGroups uid pid gs st).2.1.length = st.2.1.length + gs.length := by
  induction gs generalizing st with
  | nil => simp [materializeGroups]
  | cons g gs ih =>
    rw [materializeGroups]
    obtain ⟨h1, h2⟩ := ih (st.1 ++ [_], st.2.1 ++ [_], st.2.2 + 1)
    constructor
    · rw [h1]; simp; omega
    · rw [h2]; simp; omega

/-- C3: the claim step of the order materializer.  The conditional update
matches (and the caller proceeds) exactly under `orderClaimCond`: orders
not yet created and either no in-progress marker or a marker older than 10
minutes.  A caller that does not win — because orders already exist or the
claim condition fails — returns the current orderIds of the payment and leaves
the database untouched, creating no order.  The winner creates one order
per vendor group of the snapshot and marks the payment done with the id
list and a cleared marker. -/
theorem C3_claim_guard (pid now : Nat) (db : Db) (p : Payment)
    (hfind : db.payments.find? (fun x => x.id == pid) = some p) :
    (p.ordersCreated = true →
      createOrdersFromPayment pid now db = (.ok p.orderIds, db)) ∧
    (p.ordersCreated = false → ¬ orderClaimCond p now →
      createOrdersFromPayment pid now db = (.ok p.orderIds, db)) ∧
    (∀ cd, p.ordersCreated = false → orderClaimCond p now →
      p.checkoutData = some cd → cd.items ≠ [] → groupByVendor cd.items ≠ [] →
      ∃ ids,
        (createOrdersFromPayment pid now db).1 = .ok ids ∧
        ids.length = (groupByVendor cd.items).length ∧
        (createOrdersFromPayment pid now db).2.orders.length =
          db.orders.length + (groupByVendor cd.items).length ∧
        (createOrdersFromPayment pid now db).2.payments =
          db.payments.map fun q =>
            if q.id = pid then
              { p with
                updatedAt := now, orderIds := ids, ordersCreated := true,
                orderCreationError := none }
            else q) := by
  have hp : p.id = pid := by
    have := List.find?_some hfind
    simpa using this
  refine ⟨?_, ?_, ?_⟩
  · intro hoc
    simp [createOrdersFromPayment, hfind, hoc]
  · intro hoc hcond
    simp only [createOrdersFromPayment, hfind]
    rw [if_neg (by simp [hoc]), if_neg hcond]
  · intro cd hoc hcond hcd hitems hgroups
    simp only [createOrdersFromPayment, hfind]
    rw [if_neg (by simp [hoc]), if_pos hcond]
    simp only [hcd]
    rw [if_neg hitems, if_neg hgroups]
    refine ⟨_, rfl, ?_, ?_, ?_⟩
    · exact ((materializeGroups_lengths p.userId pid (groupByVendor cd.items)
        ([], [], db.nextId)).2).trans (by simp)
    · simp only [Db.updatePayment, List.length_append]
      rw [(materializeGroups_lengths p.userId pid (groupByVendor cd.items)
        ([], [], db.nextId)).1]
      simp
    · simp only [Db.updatePayment, List.map_map]
      apply List.map_congr_left
      intro x _
      by_cases hx : x.id = pid <;> simp [hx, hp]


/-- Checkout snapshot of the C3 scenario: one item of one vendor. -/
def c3cd : CheckoutData :=
  { items := [{ vendorId := some 11, productId := 100, price := 50, quantity := 2 }] }

/-- A succeeded pay-first payment that has not materialized orders yet. -/
def c3pay : Payment :=
  { Payment.base with
    id := 1, userId := 9, status := .succeeded, checkoutData := some c3cd,
    updatedAt := 4000000 }

/-- Database of the winner scenario. -/
def c3db : Db := { emptyDb with payments := [c3pay], nextId := 2 }

/-- A payment whose orders were already created. -/
def c3payDone : Payment :=
  { Payment.base with id := 3, ordersCreated := true, orderIds := [77] }

/-- Database of the already-created scenario. -/
def c3dbDone : Db := { emptyDb with payments := [c3payDone], nextId := 100 }

/-- A payment freshly claimed by another worker (marker set 1 ms ago). -/
def c3payBusy : Payment :=
  { Payment.base with
    id := 4, orderCreationError := some "in_progress", updatedAt := 999 }

/-- Database of the loser scenario. -/
def c3dbBusy : Db := { emptyDb with payments := [c3payBusy], nextId := 100 }

/-- C3 witness: the claim-guard theorem applied at concrete inputs. -/
theorem C3_witness :
    createOrdersFromPayment 3 42 c3dbDone = (.ok [77], c3dbDone) ∧
    createOrdersFromPayment 4 1000 c3dbBusy = (.ok [], c3dbBusy) ∧
    (∃ ids,
      (createOrdersFromPayment 1 5000000 c3db).1 = .ok ids ∧
      ids.length = (groupByVendor c3cd.items).length ∧
      (createOrdersFromPayment 1 5000000 c3db).2.orders.length =
        c3db.orders.length + (groupByVendor c3cd.items).length ∧
      (createOrdersFromPayment 1 5000000 c3db).2.payments =
        c3db.payments.map fun q =>
          if q.id = 1 then
            { c3pay with
              updatedAt := 5000000, orderIds := ids, ordersCreated := true,
              orderCreationError := none }
          else q) := by
  refine ⟨?_, ?_, ?_⟩
  · exact (C3_claim_guard 3 42 c3dbDone c3payDone
      (by simp [c3dbDone, c3payDone, emptyDb])).1 rfl
  · exact (C3_claim_guard 4 1000 c3dbBusy c3payBusy
      (by simp [c3dbBusy, c3payBusy, emptyDb])).2.1 rfl (by decide)
  · exact (C3_claim_guard 1 5000000 c3db c3pay
      (by simp [c3db, c3pay, emptyDb])).2.2 c3cd rfl (by decide) rfl
      (by simp [c3cd]) (by simp [c3cd, groupByVendor, addToGroup])



/-- C6: remittance failure on invalid amount or insufficient funds is
atomic.  With the commission re-fetched (pending or overdue for the
vendor) and no duplicate idempotency key, a non-positive commission amount
raises the invalid-amount ValidationError, and a wallet balance below the
amount raises the insufficient-funds error carrying both the available
balance and the required amount (also when the vendor has no wallet yet,
with available 0) — and in every such case the transaction aborts: the
returned database is the input database, so the commission keeps its prior
status and no WalletTransaction or balance change is persisted.  In the
exact-rational embedding of amounts the Number.isFinite guards of the
source hold vacuously. -/
theorem C6_remit_insufficient_atomic (cid vid uid now : Nat) (cb : Breaker)
    (db : Db) (c : Commission)
    (hcb : (checkCircuitBreaker now cb).1 = true)
    (hens : ensureCommissionForRemit cid vid db = some c)
    (hdup : (db.commissions.any fun x =>
      x.remittanceIdempotencyKey == some (generateIdempotencyKey cid vid)) = false) :
    (c.commissionAmount ≤ 0 →
      (remitCommissionViaWallet cid vid uid now cb db).1 =
        .error (.validation "Invalid commission amount. Please contact support.") ∧
      (remitCommissionViaWallet cid vid uid now cb db).2.2 = db) ∧
    (∀ w0, db.wallets.find? (fun x => x.user == vid) = some w0 →
      0 < c.commissionAmount → w0.balance < c.commissionAmount →
      (remitCommissionViaWallet cid vid uid now cb db).1 =
        .error (.insufficientFunds w0.balance c.commissionAmount) ∧
      (remitCommissionViaWallet cid vid uid now cb db).2.2 = db) ∧
    (db.wallets.find? (fun x => x.user == vid) = none →
      0 < c.commissionAmount →
      (remitCommissionViaWallet cid vid uid now cb db).1 =
        .error (.insufficientFunds 0 c.commissionAmount) ∧
      (remitCommissionViaWallet cid vid uid now cb db).2.2 = db) := by
  refine ⟨?_, ?_, ?_⟩
  · intro hle
    have h : remitCommissionViaWallet cid vid uid now cb db =
        (.error (.validation "Invalid commission amount. Please contact support."),
         recordFailure now (checkCircuitBreaker now cb).2, db) := by
      simp only [remitCommissionViaWallet]
      rw [if_neg (by simp [hcb])]
      simp only [hens]
      rw [if_neg (by simp [hdup])]
      simp only [getOrCreateVendorWalletInSession, Db.updateCommission]
      cases hfind : db.wallets.find? (fun x => x.user == vid) with
      | some w0 => simp only [hfind]; rw [if_pos hle]
      | none => simp only [hfind]; rw [if_pos hle]
    exact ⟨by rw [h], by rw [h]⟩
  · intro w0 hfind hpos hlt
    have h : remitCommissionViaWallet cid vid uid now cb db =
        (.error (.insufficientFunds w0.balance c.commissionAmount),
         recordFailure now (checkCircuitBreaker now cb).2, db) := by
      simp only [remitCommissionViaWallet]
      rw [if_neg (by simp [hcb])]
      simp only [hens]
      rw [if_neg (by simp [hdup])]
      simp only [getOrCreateVendorWalletInSession, Db.updateCommission]
      simp only [hfind]
      rw [if_neg (not_le.mpr hpos), if_pos hlt]
    exact ⟨by rw [h], by rw [h]⟩
  · intro hfind hpos
    have h : remitCommissionViaWallet cid vid uid now cb db =
        (.error (.insufficientFunds 0 c.commissionAmount),
         recordFailure now (checkCircuitBreaker now cb).2, db) := by
      simp only [remitCommissionViaWallet]
      rw [if_neg (by simp [hcb])]
      simp only [hens]
      rw [if_neg (by simp [hdup])]
      simp only [getOrCreateVendorWalletInSession, Db.updateCommission]
      simp only [hfind]
      rw [if_neg (not_le.mpr hpos)]
      rw [if_pos (by simpa using hpos)]
    exact ⟨by rw [h], by rw [h]⟩

/-- A closed circuit breaker. -/
def cbClosed : Breaker := { failures := 0, lastFailure := 0, isOpen := false }

/-- Commission of 25 PHP pending for vendor 5. -/
def c6comm : Commission :=
  { id := 8, order := 80, vendor := 5, status := .pending,
    commissionAmount := 25, remittanceIdempotencyKey := none,
    walletTransactionId := none, remittanceHistory := [], statusHistory := [] }

/-- A zero-amount pending commission for vendor 6 (no wallet exists). -/
def c6commZero : Commission :=
  { id := 9, order := 81, vendor := 6, status := .pending,
    commissionAmount := 0, remittanceIdempotencyKey := none,
    walletTransactionId := none, remittanceHistory := [], statusHistory := [] }

/-- C6 scenario state: the wallet of vendor 5 holds only 10. -/
def c6db : Db :=
  { emptyDb with
    commissions := [c6comm, c6commZero],
    wallets := [{ id := 1, user := 5, balance := 10, transactions := [] }],
    nextId := 20 }

/-- C6 witness: the atomic-failure theorem applied at concrete inputs. -/
theorem C6_witness :
    ((remitCommissionViaWallet 8 5 3 0 cbClosed c6db).1 =
       .error (.insufficientFunds 10 25) ∧
     (remitCommissionViaWallet 8 5 3 0 cbClosed c6db).2.2 = c6db) ∧
    ((remitCommissionViaWallet 9 6 3 0 cbClosed c6db).1 =
       .error (.validation "Invalid commission amount. Please contact support.") ∧
     (remitCommissionViaWallet 9 6 3 0 cbClosed c6db).2.2 = c6db) := by
  constructor
  · have := (C6_remit_insufficient_atomic 8 5 3 0 cbClosed c6db c6comm
      (by decide)
      (by simp [ensureCommissionForRemit, c6db, c6comm, c6commZero, emptyDb])
      (by simp [c6db, c6comm, c6commZero, emptyDb])).2.1
      ⟨1, 5, 10, []⟩
      (by simp [c6db, emptyDb])
      (by norm_num [c6comm]) (by norm_num [c6comm])
    simpa [c6comm] using this
  · have := (C6_remit_insufficient_atomic 9 6 3 0 cbClosed c6db c6commZero
      (by decide)
      (by simp [ensureCommissionForRemit, c6db, c6comm, c6commZero, emptyDb])
      (by simp [c6db, c6comm, c6commZero, emptyDb])).1
      (by norm_num [c6commZero])
    simpa [c6commZero] using this



/-- Mark a payment final (helper for stating cancelled results). -/
def Payment.markFinal (p : Payment) : Payment := { p with isFinal := true }

/-- The withdrawal payment of the cancel scenario. -/
def c10pay (vid pid : Nat) (A : ℤ) (st : PaymentStatus) : Payment :=
  { Payment.base with
    id := pid, userId := vid, ptype := .withdraw, amount := A, status := st }

/-- Scenario state for the cancel-withdrawal claim: one withdrawal payment
of the vendor, one vendor document, one vendor wallet. -/
def c10db (vid pid : Nat) (A : ℤ) (cash bal : ℚ) (st : PaymentStatus) : Db :=
  { emptyDb with
    payments := [c10pay vid pid A st],
    vendors := [{ userId := vid, accountBalanceCash := cash }],
    wallets := [{ id := 1, user := vid, balance := bal, transactions := [] }],
    nextId := 2 }

/-- C10: cancelling a withdrawal credits two distinct balance fields: the
vendor document accountBalance.cash is incremented by amount / 100 and the
vendor wallet balance is separately incremented by amount / 100; the
payment ends cancelled and final.  Unlike `rejectWithdrawal`, which
rejects a processing withdrawal with a ValidationError and changes
nothing, `cancelWithdrawal` accepts status processing as well as
pending. -/
theorem C10_cancel_two_balances (vid pid : Nat) (A : ℤ) (cash bal : ℚ)
    (st : PaymentStatus) (hst : st = .pending ∨ st = .processing) :
    (cancelWithdrawal vid pid none (c10db vid pid A cash bal st)).1 =
      .ok (c10pay vid pid A .cancelled).markFinal ∧
    (cancelWithdrawal vid pid none (c10db vid pid A cash bal st)).2.vendors.map
      VendorDoc.accountBalanceCash = [cash + (A : ℚ) / 100] ∧
    (cancelWithdrawal vid pid none (c10db vid pid A cash bal st)).2.wallets.map
      VendorWallet.balance = [bal + (A : ℚ) / 100] ∧
    rejectWithdrawal 999 pid (c10db vid pid A cash bal .processing) =
      (.error (.validation "Only pending withdrawals can be rejected"),
       c10db vid pid A cash bal .processing) := by
  have hcond : ¬(¬st = PaymentStatus.pending ∧ ¬st = PaymentStatus.processing) := by
    rcases hst with h | h <;> simp [h]
  refine ⟨?_, ?_, ?_, ?_⟩
  · simp [cancelWithdrawal, c10db, c10pay, emptyDb, Payment.base, savePayment,
      preSaveNetAmount, Db.updatePayment, findOneAndUpdateL, Payment.markFinal,
      hcond]
  · simp [cancelWithdrawal, c10db, c10pay, emptyDb, Payment.base, savePayment,
      preSaveNetAmount, Db.updatePayment, findOneAndUpdateL, hcond]
  · simp [cancelWithdrawal, c10db, c10pay, emptyDb, Payment.base, savePayment,
      preSaveNetAmount, Db.updatePayment, findOneAndUpdateL, hcond]
  · simp [rejectWithdrawal, c10db, c10pay, emptyDb, Payment.base]

/-- C10 witness: the theorem applied at a concrete processing
withdrawal. -/
theorem C10_witness :
    ((PaymentStatus.processing = .pending ∨
      PaymentStatus.processing = .processing) ∧
     (cancelWithdrawal 5 7 none (c10db 5 7 10000 3 40 .processing)).1 =
       .ok (c10pay 5 7 10000 .cancelled).markFinal ∧
     (cancelWithdrawal 5 7 none (c10db 5 7 10000 3 40 .processing)).2.vendors.map
       VendorDoc.accountBalanceCash = [3 + (10000 : ℚ) / 100] ∧
     (cancelWithdrawal 5 7 none (c10db 5 7 10000 3 40 .processing)).2.wallets.map
       VendorWallet.balance = [40 + (10000 : ℚ) / 100] ∧
     rejectWithdrawal 999 7 (c10db 5 7 10000 3 40 .processing) =
       (.error (.validation "Only pending withdrawals can be rejected"),
        c10db 5 7 10000 3 40 .processing)) :=
  ⟨Or.inr rfl, C10_cancel_two_balances 5 7 10000 3 40 .processing (Or.inr rfl)⟩



/-- Initial state of the round-trip scenario: one vendor wallet holding
balance b. -/
def c9db (b : ℚ) : Db :=
  { emptyDb with
    wallets := [{ id := 1, user := 5, balance := b, transactions := [] }],
    nextId := 2 }

/-- The inline debit-log entry of a withdrawal of amount A. -/
def c5debitLog₂ (A : ℤ) : InlineTx :=
  { txType := .debit, amount := (A : ℚ) / 100, description := "Vendor Withdrawal" }

/-- The withdrawal Payment row created for amount A. -/
def c9pay (A : ℤ) : Payment :=
  { Payment.base with
    id := 2, userId := 5, ptype := .withdraw, amount := A,
    fee := jsRound ((A : ℚ) * 1 / 100),
    netAmount := A - jsRound ((A : ℚ) * 1 / 100), status := .pending,
    idempotencyKey := some (withdrawDerivedKey 5 A "gcash" "0917" "V" "GCash"),
    bankAccount := some c5bank }

/-- State after the withdrawal creation: pending row and debited wallet. -/
def c9db1 (A : ℤ) (b : ℚ) : Db :=
  { emptyDb with
    payments := [c9pay A],
    wallets := [{ id := 1, user := 5, balance := b - (A : ℚ) / 100, transactions := [c5debitLog₂ A] }],
    nextId := 3 }

/-- The rejected withdrawal row. -/
def c9pay2 (A : ℤ) : Payment :=
  { c9pay A with status := .rejected, isFinal := true, rejectedBy := some 9 }

/-- C2: commission remittance happens at most once.  A successful
`remitCommissionViaWallet` requires the in-transaction re-fetch to see the
commission pending or overdue for the given vendor; it stores the
deterministic remittance idempotency key and moves the commission to
remitted, appends exactly one completed debit WalletTransaction of exactly
commissionAmount, and lowers the total wallet balance by exactly that
amount.  A remit attempt that finds the deterministic key already recorded
is rejected as a conflict without any change, and any subsequent remit
attempt on the same commission fails and leaves the database unchanged —
no second remitted transition and no second debit. -/
theorem C2_remit_once (cid vid uid now : Nat) (cb : Breaker) (db : Db)
    (r : RemitOk) (cb' : Breaker) (db' : Db)
    (hrun : remitCommissionViaWallet cid vid uid now cb db = (.ok r, cb', db')) :
    ∃ c, ensureCommissionForRemit cid vid db = some c ∧
      c.id = cid ∧ c.vendor = vid ∧
      (c.status = .pending ∨ c.status = .overdue) ∧
      r.commission.id = c.id ∧
      r.commission.status = .remitted ∧
      r.commission.remittanceIdempotencyKey =
        some (generateIdempotencyKey cid vid) ∧
      db'.commissions =
        db.commissions.map (fun x => if x.id = c.id then r.commission else x) ∧
      db'.walletTxs = db.walletTxs ++ [r.transaction] ∧
      r.transaction.txType = .debit ∧
      r.transaction.amount = c.commissionAmount ∧
      r.transaction.status = "completed" ∧
      (db'.wallets.map VendorWallet.balance).sum =
        (db.wallets.map VendorWallet.balance).sum - c.commissionAmount ∧
      (∀ (db₂ : Db) (c₂ : Commission),
        ensureCommissionForRemit cid vid db₂ = some c₂ →
        (db₂.commissions.any fun x => x.remittanceIdempotencyKey ==
          some (generateIdempotencyKey cid vid)) = true →
        ∀ (uid₂ now₂ : Nat) (cb₂ : Breaker),
          (checkCircuitBreaker now₂ cb₂).1 = true →
          (remitCommissionViaWallet cid vid uid₂ now₂ cb₂ db₂).1 =
            .error (.conflict "Duplicate transaction detected") ∧
          (remitCommissionViaWallet cid vid uid₂ now₂ cb₂ db₂).2.2 = db₂) ∧
      (∀ (uid₂ now₂ : Nat) (cb₂ : Breaker), ∃ e,
        (remitCommissionViaWallet cid vid uid₂ now₂ cb₂ db').1 = .error e ∧
        (remitCommissionViaWallet cid vid uid₂ now₂ cb₂ db').2.2 = db') := by
  rcases remit_spec cid vid uid now cb db _ hrun with ⟨e, he, -⟩ |
    ⟨r₀, c, w0, l₁, l₂, w, hok, hens, hdup, hfind, hsplit, hall, hwid, hwbal,
      hpos, htx, hnb, hcid, hcvendor, hcstatus, hcamount, hckey, hchist,
      hcstatushist, hdb⟩
  · simp at he
  · have hr : r₀ = r := by
      simpa using hok.symm
    subst hr
    replace hdb : db' = _ := hdb
    have hpred := List.find?_some hens
    rw [Bool.and_eq_true, Bool.and_eq_true] at hpred
    obtain ⟨⟨hid, hvendor⟩, hstatus⟩ := hpred
    rw [beq_iff_eq] at hid hvendor
    rw [Bool.or_eq_true, beq_iff_eq, beq_iff_eq] at hstatus
    refine ⟨c, hens, hid, hvendor, hstatus, hcid, hcstatus, hckey,
      by rw [hdb], by rw [hdb], by rw [htx], by rw [htx], by rw [htx],
      ?_, ?_, ?_⟩
    · rw [hdb, hsplit]
      simp [List.map_append, List.sum_append]
      ring
    · intro db₂ c₂ hens₂ hdup₂ uid₂ now₂ cb₂ hcb₂
      have h : remitCommissionViaWallet cid vid uid₂ now₂ cb₂ db₂ =
          (.error (.conflict "Duplicate transaction detected"),
           recordFailure now₂ (checkCircuitBreaker now₂ cb₂).2, db₂) := by
        simp only [remitCommissionViaWallet]
        rw [if_neg (by simp [hcb₂])]
        simp only [hens₂]
        rw [if_pos hdup₂]
      exact ⟨by rw [h], by rw [h]⟩
    · intro uid₂ now₂ cb₂
      have hensnone : ensureCommissionForRemit cid vid db' = none := by
        unfold ensureCommissionForRemit
        rw [List.find?_eq_none]
        intro x hx
        rw [hdb] at hx
        simp only [List.mem_map] at hx
        obtain ⟨y, hy, rfl⟩ := hx
        by_cases hyid : y.id = c.id
        · simp [hyid, hcstatus]
        · simp [hyid]
          intro hxid
          exact absurd (hxid.trans hid.symm) hyid
      rcases remit_spec cid vid uid₂ now₂ cb₂ db' _ rfl with ⟨e, he, hdb₂⟩ |
        ⟨r₂, c₂, w₂, l₁₂, l₂₂, ww, hok₂, hens₂, -⟩
      · exact ⟨e, he, hdb₂⟩
      · rw [hensnone] at hens₂
        cases hens₂


/-- The pending 25-PHP commission of the C2 scenario. -/
def c2comm : Commission :=
  { id := 8, order := 80, vendor := 5, status := .pending,
    commissionAmount := 25, remittanceIdempotencyKey := none,
    walletTransactionId := none, remittanceHistory := [], statusHistory := [] }

/-- C2 scenario state: the commission and a wallet holding 100. -/
def c2db : Db :=
  { emptyDb with
    commissions := [c2comm],
    wallets := [{ id := 1, user := 5, balance := 100, transactions := [] }],
    nextId := 20 }

/-- The debit ledger row the remit creates. -/
def c2tx : WalletTx :=
  { id := 20, wallet := 1, user := 5, txType := .debit, amount := 25,
    referenceType := "commission", referenceId := 8, status := "completed",
    balanceBefore := 100, balanceAfter := 75 }

/-- The audit entry appended on remittance. -/
def c2statusEntry : StatusEntry :=
  { status := .remitted, changedBy := some 3, reason := "Remitted via wallet deduction" }

/-- The commission after remittance. -/
def c2comm2 : Commission :=
  { id := 8, order := 80, vendor := 5, status := .remitted,
    commissionAmount := 25,
    remittanceIdempotencyKey := some (generateIdempotencyKey 8 5),
    walletTransactionId := some 20,
    remittanceHistory := [{ amount := 25, method := "wallet", status := "completed" }],
    statusHistory := [c2statusEntry] }

/-- The remit result value. -/
def c2res : RemitOk :=
  { commission := c2comm2, transaction := c2tx, newBalance := 75 }

/-- The wallet after the remit debit. -/
def c2walletAfter : VendorWallet :=
  { id := 1, user := 5, balance := 75,
    transactions := [{ txType := .debit, amount := 25, description := "Commission remittance" }] }

/-- State after the successful remit. -/
def c2db1 : Db :=
  { emptyDb with
    wallets := [c2walletAfter], walletTxs := [c2tx],
    commissions := [c2comm2], nextId := 21 }

/-- C2 witness: the remit-once theorem applied to a concrete successful
remittance. -/
theorem C2_witness :
    remitCommissionViaWallet 8 5 3 0 cbClosed c2db = (.ok c2res, cbClosed, c2db1) ∧
    (∃ c, ensureCommissionForRemit 8 5 c2db = some c ∧
      c.id = 8 ∧ c.vendor = 5 ∧
      (c.status = .pending ∨ c.status = .overdue) ∧
      c2res.commission.id = c.id ∧
      c2res.commission.status = .remitted ∧
      c2res.commission.remittanceIdempotencyKey =
        some (generateIdempotencyKey 8 5) ∧
      c2db1.commissions =
        c2db.commissions.map (fun x => if x.id = c.id then c2res.commission else x) ∧
      c2db1.walletTxs = c2db.walletTxs ++ [c2res.transaction] ∧
      c2res.transaction.txType = .debit ∧
      c2res.transaction.amount = c.commissionAmount ∧
      c2res.transaction.status = "completed" ∧
      (c2db1.wallets.map VendorWallet.balance).sum =
        (c2db.wallets.map VendorWallet.balance).sum - c.commissionAmount ∧
      (∀ (db₂ : Db) (c₂ : Commission),
        ensureCommissionForRemit 8 5 db₂ = some c₂ →
        (db₂.commissions.any fun x => x.remittanceIdempotencyKey ==
          some (generateIdempotencyKey 8 5)) = true →
        ∀ (uid₂ now₂ : Nat) (cb₂ : Breaker),
          (checkCircuitBreaker now₂ cb₂).1 = true →
          (remitCommissionViaWallet 8 5 uid₂ now₂ cb₂ db₂).1 =
            .error (.conflict "Duplicate transaction detected") ∧
          (remitCommissionViaWallet 8 5 uid₂ now₂ cb₂ db₂).2.2 = db₂) ∧
      (∀ (uid₂ now₂ : Nat) (cb₂ : Breaker), ∃ e,
        (remitCommissionViaWallet 8 5 uid₂ now₂ cb₂ c2db1).1 = .error e ∧
        (remitCommissionViaWallet 8 5 uid₂ now₂ cb₂ c2db1).2.2 = c2db1)) := by
  have h : remitCommissionViaWallet 8 5 3 0 cbClosed c2db =
      (.ok c2res, cbClosed, c2db1) := by
    norm_num [remitCommissionViaWallet, ensureCommissionForRemit,
      getOrCreateVendorWalletInSession, Db.updateCommission,
      checkCircuitBreaker, cbClosed, c2db, c2comm, emptyDb, findOneAndUpdateL,
      generateIdempotencyKey, sha256Hex, c2res, c2comm2, c2tx, c2walletAfter,
      c2db1, recordFailure]
    rfl
  exact ⟨h, C2_remit_once 8 5 3 0 cbClosed c2db c2res cbClosed c2db1 h⟩


end DS
